import Mathlib

/-!
Verification of the typed configuration value engine (qutebrowser's
`configtypes`-style subsystem). The engine's implementation file is not part of
the source tree (only its test suite is), so the definitions below are modelled
from the design specification, with behaviour pinned by the in-tree test suite
(`src/tests/unit/config/test_configtypes.py`) wherever the two speak to the same
point. Host values decoded from a structured document are modelled by `PyValue`;
containers hold scalar leaves (`PyLeaf`), which covers every behaviour the
claims exercise (no claim involves nested containers).
-/

namespace Configtypes

/-- Error taxonomy of the spec (section 7): kinds of validation failure. -/
inductive ErrKind where
  | emptyValue
  | typeMismatch
  | invalidValue
  | outOfBounds
  | wrongLength
  | keyShape
  | invalidFormat
  | duplicateValue
  deriving DecidableEq, Repr

/-- Modelled from the spec: a ValidationError carries a kind and a message and
is always caller-recoverable. -/
structure ValidationError where
  kind : ErrKind
  msg : String
  deriving DecidableEq, Repr

abbrev VResult (α : Type) := Except ValidationError α

deriving instance DecidableEq for Except

/-- A loosely-typed scalar host value as found inside a decoded container:
absent, boolean, integer, string, or an opaque object of some other host type. -/
inductive PyLeaf where
  | lnone
  | lbool (b : Bool)
  | lint (n : Int)
  | lstr (s : String)
  | lobj
  deriving DecidableEq, Repr

/-- A loosely-typed host value handed to `to_py`: a scalar, a sequence, a
mapping, the Padding record produced by the Padding type, or an opaque object
(the model of Python `object()`). -/
inductive PyValue where
  | pynone
  | pybool (b : Bool)
  | pyint (n : Int)
  | pystr (s : String)
  | pylist (l : List PyLeaf)
  | pydict (entries : List (String × PyLeaf))
  | pypad (top bottom left right : Option Int)
  | pyobj
  deriving DecidableEq, Repr

def PyLeaf.toVal : PyLeaf → PyValue
  | .lnone => .pynone
  | .lbool b => .pybool b
  | .lint n => .pyint n
  | .lstr s => .pystr s
  | .lobj => .pyobj

def leafOf : PyValue → PyLeaf
  | .pynone => .lnone
  | .pybool b => .lbool b
  | .pyint n => .lint n
  | .pystr s => .lstr s
  | _ => .lobj

/-- The host type name used in TypeMismatch messages (Python `type(value).__name__`). -/
def pyTypeName : PyValue → String
  | .pynone => "NoneType"
  | .pybool _ => "bool"
  | .pyint _ => "int"
  | .pystr _ => "str"
  | .pylist _ => "list"
  | .pydict _ => "dict"
  | .pypad _ _ _ _ => "PaddingValues"
  | .pyobj => "object"

/-- The host shapes a type may expect (the `pytype` argument of the shared
basic python-value validation). -/
inductive PyShape where
  | sstr
  | sint
  | sbool
  | slist
  | sdict
  deriving DecidableEq, Repr

def PyShape.name : PyShape → String
  | .sstr => "str"
  | .sint => "int"
  | .sbool => "bool"
  | .slist => "list"
  | .sdict => "dict"

/-- Does the host value match the expected shape? A boolean never matches the
integer shape, mirroring the engine's explicit bool-is-not-int rule. -/
def shapeMatches : PyShape → PyValue → Bool
  | .sstr, .pystr _ => true
  | .sint, .pyint _ => true
  | .sbool, .pybool _ => true
  | .slist, .pylist _ => true
  | .sdict, .pydict _ => true
  | _, _ => false

def unprintable (c : Char) : Bool := c.toNat < 32 || c.toNat == 127

/-- Modelled from the spec: basic string validation shared by all types —
rejects empty input unless `none_ok`, and rejects NUL/control bytes. -/
def basicStrValidation (noneOk : Bool) (s : String) : VResult Unit :=
  if s.isEmpty && !noneOk then .error ⟨.emptyValue, "may not be empty!"⟩
  else if s.data.any unprintable then
    .error ⟨.invalidFormat, "may not contain unprintable chars!"⟩
  else .ok ()

def expectedNames (shapes : List PyShape) : String :=
  String.intercalate " or " (shapes.map PyShape.name)

/-- Modelled from the spec: basic python-value validation shared by all types —
`None` fails unless `none_ok`; a host shape that does not match the expectation
fails with TypeMismatch before any domain rule runs; strings additionally get
the basic string validation. -/
def basicPyValidation (noneOk : Bool) (shapes : List PyShape) (v : PyValue) :
    VResult Unit :=
  match v with
  | .pynone => if noneOk then .ok () else .error ⟨.emptyValue, "may not be null!"⟩
  | _ =>
    if !(shapes.any (fun sh => shapeMatches sh v)) then
      .error ⟨.typeMismatch,
        "expected a value of type " ++ expectedNames shapes ++ " but got " ++
          pyTypeName v ++ "."⟩
    else
      match v with
      | .pystr s => basicStrValidation noneOk s
      | _ => .ok ()

/-- An ordered set of permissible tokens, each with an optional description. -/
structure ValidValues where
  values : List String
  descriptions : List (String × String)
  deriving DecidableEq, Repr

/-- The (token, description) pairs among a construction argument list. -/
def descArgs (args : List (String × Option String)) : List (String × String) :=
  args.filterMap (fun a => a.2.map (fun d => (a.1, d)))

/-- Construction from a mixture of plain tokens and (token, description)
pairs, keeping insertion order. -/
def ValidValues.ofArgs (args : List (String × Option String)) : ValidValues :=
  ⟨args.map Prod.fst, descArgs args⟩

def lookupDesc : List (String × String) → String → Option String
  | [], _ => none
  | p :: rest, key => if p.1 = key then some p.2 else lookupDesc rest key

/-- Modelled from the spec: ValidValues equality compares the token set and the
descriptions only, ignoring insertion order. -/
def ValidValues.beq (a b : ValidValues) : Bool :=
  a.values.all (fun v => b.values.contains v) &&
  b.values.all (fun v => a.values.contains v) &&
  a.descriptions.all (fun p => lookupDesc b.descriptions p.1 == some p.2) &&
  b.descriptions.all (fun p => lookupDesc a.descriptions p.1 == some p.2)

/-- Token-membership validation: a no-op when no ValidValues is set, otherwise
the token must be a member. -/
def validateValidValues (vv : Option ValidValues) (token : String) : VResult Unit :=
  match vv with
  | none => .ok ()
  | some v =>
    if v.values.contains token then .ok ()
    else .error ⟨.invalidValue,
      "valid values: " ++ String.intercalate ", " v.values⟩

/-- Completion candidates derived from a ValidValues: each token in insertion
order, paired with its description (empty when absent). -/
def completeOf (vv : Option ValidValues) : Option (List (String × String)) :=
  vv.map (fun v => v.values.map (fun t => (t, (lookupDesc v.descriptions t).getD "")))

def validateLower (minval : Option Int) (v : Int) (suffix : String) : VResult Unit :=
  match minval with
  | some m =>
    if v < m then
      .error ⟨.outOfBounds, "must be " ++ toString m ++ suffix ++ " or bigger!"⟩
    else .ok ()
  | none => .ok ()

def validateUpper (maxval : Option Int) (v : Int) (suffix : String) : VResult Unit :=
  match maxval with
  | some m =>
    if m < v then
      .error ⟨.outOfBounds, "must be " ++ toString m ++ suffix ++ " or smaller!"⟩
    else .ok ()
  | none => .ok ()

/-- Modelled from the spec: the bounded-numeric mixin's bound check. `None`
passes unconditionally; otherwise the value must lie inclusively between the
bounds, and the failure message names the violated bound with the unit suffix
appended. -/
def validateBounds (minval maxval : Option Int) (value : Option Int)
    (suffix : String) : VResult Unit :=
  match value with
  | none => .ok ()
  | some v =>
    match validateLower minval v suffix with
    | .error e => .error e
    | .ok _ => validateUpper maxval v suffix

def digitCharOf (d : Nat) : Char := Char.ofNat (48 + d)

/-- Is the character a decimal digit (code points 48-57)? -/
def isDig (c : Char) : Bool := 48 ≤ c.toNat && c.toNat ≤ 57

/-- Canonical decimal digits of a natural number, most significant first. -/
def natDecChars (n : Nat) : List Char :=
  if _h : n < 10 then [digitCharOf n]
  else natDecChars (n / 10) ++ [digitCharOf (n % 10)]
decreasing_by exact Nat.div_lt_self (by omega) (by omega)

def digitVal (c : Char) : Nat := c.toNat - 48

def decValue (ds : List Char) : Nat := ds.foldl (fun a c => 10 * a + digitVal c) 0

/-- Canonical decimal rendering of an integer (Python `str(int)` / `json.dumps(int)`). -/
def intDecString (n : Int) : String :=
  if n < 0 then ⟨'-' :: natDecChars n.natAbs⟩ else ⟨natDecChars n.natAbs⟩

/-- Model of Python `int(str)`: an optional sign followed by one or more
decimal digits (leading zeros permitted), anything else fails. -/
def strToInt (s : String) : Option Int :=
  match s.data with
  | [] => none
  | c :: cs =>
    if c = '-' then
      if !cs.isEmpty && cs.all isDig then some (-(decValue cs : Int)) else none
    else if c = '+' then
      if !cs.isEmpty && cs.all isDig then some ((decValue cs : Nat) : Int) else none
    else if (c :: cs).all isDig then some ((decValue (c :: cs) : Nat) : Int)
    else none

/-! JSON-like textual encoding for container values, modelled from the spec's
"JSON-array-like/JSON-object-like textual encoding" with Python's default
`json.dumps` separators; strings are quoted with backslash escapes for the
quote and the backslash. -/

def escChar (c : Char) : List Char :=
  if c = '"' || c = '\\' then ['\\', c] else [c]

def escChars : List Char → List Char
  | [] => []
  | c :: rest => escChar c ++ escChars rest

def quoteStr (s : String) : List Char := '"' :: (escChars s.data ++ ['"'])

def leafDump : PyLeaf → List Char
  | .lnone => "null".data
  | .lbool true => "true".data
  | .lbool false => "false".data
  | .lint n => (intDecString n).data
  | .lstr s => quoteStr s
  | .lobj => "object".data

def entryDump (e : String × PyLeaf) : List Char :=
  quoteStr e.1 ++ ':' :: ' ' :: leafDump e.2

def sepJoin : List (List Char) → List Char
  | [] => []
  | [x] => x
  | x :: rest => x ++ ',' :: ' ' :: sepJoin rest

/-- The canonical JSON-like rendering of a host value (model of `json.dumps`). -/
def jsonDumpVal : PyValue → String
  | .pynone => "null"
  | .pybool true => "true"
  | .pybool false => "false"
  | .pyint n => intDecString n
  | .pystr s => ⟨quoteStr s⟩
  | .pylist l => ⟨'[' :: (sepJoin (l.map leafDump) ++ [']'])⟩
  | .pydict es => ⟨'\x7b' :: (sepJoin (es.map entryDump) ++ ['\x7d'])⟩
  | .pypad _ _ _ _ => ""
  | .pyobj => ""

/-- Body of a quoted string after its opening quote: the decoded characters and
the text following the closing quote. -/
def parseStrBody : List Char → Option (List Char × List Char)
  | [] => none
  | c :: rest =>
    if c = '"' then some ([], rest)
    else if c = '\\' then
      match rest with
      | [] => none
      | c2 :: rest2 =>
        if c2 = '"' || c2 = '\\' then (parseStrBody rest2).map (fun p => (c2 :: p.1, p.2))
        else none
    else (parseStrBody rest).map (fun p => (c :: p.1, p.2))

/-- Splits the longest leading run of decimal digits off a character list. -/
def splitDigits : List Char → (List Char × List Char)
  | [] => ([], [])
  | c :: rest =>
    if isDig c then
      let p := splitDigits rest
      (c :: p.1, p.2)
    else ([], c :: rest)

/-- One scalar JSON token: a quoted string, `null`, `true`, `false`, or an
integer literal. -/
def parseLeaf : List Char → Option (PyLeaf × List Char)
  | '"' :: rest => (parseStrBody rest).map (fun p => (.lstr ⟨p.1⟩, p.2))
  | 'n' :: 'u' :: 'l' :: 'l' :: rest => some (.lnone, rest)
  | 't' :: 'r' :: 'u' :: 'e' :: rest => some (.lbool true, rest)
  | 'f' :: 'a' :: 'l' :: 's' :: 'e' :: rest => some (.lbool false, rest)
  | '-' :: rest =>
    match splitDigits rest with
    | ([], _) => none
    | (ds, r) => some (.lint (-(decValue ds : Int)), r)
  | cs =>
    match splitDigits cs with
    | ([], _) => none
    | (ds, r) => some (.lint ((decValue ds : Nat) : Int), r)

/-- Remaining items of a JSON array after its first element, fuelled by the
length of the input. -/
def parseListTail (fuel : Nat) (cs : List Char) : Option (List PyLeaf × List Char) :=
  match cs with
  | ']' :: rest => some ([], rest)
  | ',' :: ' ' :: rest =>
    match fuel with
    | 0 => none
    | f + 1 =>
      match parseLeaf rest with
      | some (v, r) =>
        match parseListTail f r with
        | some (l, r2) => some (v :: l, r2)
        | none => none
      | none => none
  | _ => none

/-- One `"key": value` entry of a JSON object. -/
def parseEntry (cs : List Char) : Option ((String × PyLeaf) × List Char) :=
  match cs with
  | '"' :: rest =>
    match parseStrBody rest with
    | some (k, ':' :: ' ' :: r) =>
      match parseLeaf r with
      | some (v, r2) => some ((⟨k⟩, v), r2)
      | none => none
    | _ => none
  | _ => none

/-- Remaining entries of a JSON object after its first entry. -/
def parseDictTail (fuel : Nat) (cs : List Char) :
    Option (List (String × PyLeaf) × List Char) :=
  match cs with
  | '\x7d' :: rest => some ([], rest)
  | ',' :: ' ' :: rest =>
    match fuel with
    | 0 => none
    | f + 1 =>
      match parseEntry rest with
      | some (e, r) =>
        match parseDictTail f r with
        | some (es, r2) => some (e :: es, r2)
        | none => none
      | none => none
  | _ => none

/-- Model of the document decode used by the container types' `from_str`
(the engine loads the text with a YAML/JSON loader and then validates the
decoded value): parses the JSON-like encoding into a host value. -/
def parseJson (s : String) : Option PyValue :=
  match s.data with
  | '[' :: ']' :: [] => some (.pylist [])
  | '[' :: rest =>
    match parseLeaf rest with
    | some (v, r) =>
      match parseListTail s.length r with
      | some (l, []) => some (.pylist (v :: l))
      | _ => none
    | none => none
  | '\x7b' :: '\x7d' :: [] => some (.pydict [])
  | '\x7b' :: rest =>
    match parseEntry rest with
    | some (e, r) =>
      match parseDictTail s.length r with
      | some (es, []) => some (.pydict (e :: es))
      | _ => none
    | none => none
  | cs =>
    match parseLeaf cs with
    | some (v, []) => some v.toVal
    | _ => none

/-! The concrete value types. Each type's construction parameters live in a
small argument structure; `to_py` validates an already-decoded host value,
`from_str` parses a raw configuration string, `to_str` renders the canonical
text. All are modelled from the spec's component design (section 4), with the
empty/None flow pinned by the test suite. -/

structure StringArgs where
  noneOk : Bool := false
  minlen : Option Nat := none
  maxlen : Option Nat := none
  forbidden : Option String := none
  validValues : Option ValidValues := none
  completions : Option (List (String × String)) := none
  deriving Repr

def forbiddenHit (forbidden : Option String) (s : String) : Bool :=
  match forbidden with
  | some fs => s.data.any (fun c => fs.data.contains c)
  | none => false

def minlenViol (minlen : Option Nat) (s : String) : Bool :=
  match minlen with
  | some m => decide (s.length < m)
  | none => false

def maxlenViol (maxlen : Option Nat) (s : String) : Bool :=
  match maxlen with
  | some m => decide (m < s.length)
  | none => false

/-- `String.to_py`: basic shape and string checks, then valid-values,
forbidden-characters and length rules. -/
def stringToPy (a : StringArgs) (v : PyValue) : VResult PyValue :=
  match basicPyValidation a.noneOk [.sstr] v with
  | .error e => .error e
  | .ok _ =>
    match v with
    | .pynone => .ok .pynone
    | .pystr s =>
      match validateValidValues a.validValues s with
      | .error e => .error e
      | .ok _ =>
        if forbiddenHit a.forbidden s then
          .error ⟨.invalidValue, "may not contain the chars " ++
            (match a.forbidden with | some fs => fs | none => "")⟩
        else if minlenViol a.minlen s then
          .error ⟨.invalidValue, "must be at least " ++
            toString (a.minlen.getD 0) ++ " chars long!"⟩
        else if maxlenViol a.maxlen s then
          .error ⟨.invalidValue, "must be at most " ++
            toString (a.maxlen.getD 0) ++ " chars long!"⟩
        else .ok (.pystr s)
    | _ => .ok v

/-- `BaseType.from_str` for string-shaped types: basic string validation, the
empty string yields the absent value, anything else goes through `to_py`. -/
def stringFromStr (a : StringArgs) (s : String) : VResult PyValue :=
  match basicStrValidation a.noneOk s with
  | .error e => .error e
  | .ok _ => if s.isEmpty then .ok .pynone else stringToPy a (.pystr s)

def stringToStr : PyValue → String
  | .pystr s => s
  | _ => ""

/-- `String.complete`: an explicit completions list wins, else the
valid-values-derived candidates, else no completion. -/
def stringComplete (a : StringArgs) : Option (List (String × String)) :=
  match a.completions with
  | some cs => some cs
  | none => completeOf a.validValues

structure IntArgs where
  noneOk : Bool := false
  minval : Option Int := none
  maxval : Option Int := none
  deriving Repr

/-- `Int.to_py`: the host value must be an integer (a boolean never passes),
then the inclusive bound check runs. -/
def intToPy (a : IntArgs) (v : PyValue) : VResult PyValue :=
  match basicPyValidation a.noneOk [.sint] v with
  | .error e => .error e
  | .ok _ =>
    match v with
    | .pynone => .ok .pynone
    | .pyint n =>
      match validateBounds a.minval a.maxval (some n) "" with
      | .error e => .error e
      | .ok _ => .ok (.pyint n)
    | _ => .ok v

/-- `Int.from_str`: numeric literal parse then `to_py`. -/
def intFromStr (a : IntArgs) (s : String) : VResult PyValue :=
  match basicStrValidation a.noneOk s with
  | .error e => .error e
  | .ok _ =>
    if s.isEmpty then .ok .pynone
    else
      match strToInt s with
      | some n => intToPy a (.pyint n)
      | none => .error ⟨.invalidFormat, "must be an int!"⟩

def intToStr : PyValue → String
  | .pyint n => intDecString n
  | _ => ""

def lowerStr (s : String) : String := ⟨s.data.map Char.toLower⟩

/-- The case-insensitive boolean token table (`1/yes/true/on` and
`0/no/false/off`). -/
def boolFromTable (s : String) : Option Bool :=
  let t := lowerStr s
  if t = "1" || t = "yes" || t = "true" || t = "on" then some true
  else if t = "0" || t = "no" || t = "false" || t = "off" then some false
  else none

/-- `Bool.to_py`: the host value must already be a boolean. -/
def boolToPy (noneOk : Bool) (v : PyValue) : VResult PyValue :=
  match basicPyValidation noneOk [.sbool] v with
  | .error e => .error e
  | .ok _ =>
    match v with
    | .pynone => .ok .pynone
    | .pybool b => .ok (.pybool b)
    | _ => .ok v

/-- `Bool.from_str`: look the lowercased token up in the boolean table. -/
def boolFromStr (noneOk : Bool) (s : String) : VResult PyValue :=
  match basicStrValidation noneOk s with
  | .error e => .error e
  | .ok _ =>
    if s.isEmpty then .ok .pynone
    else
      match boolFromTable s with
      | some b => .ok (.pybool b)
      | none => .error ⟨.invalidValue, "must be a boolean!"⟩

/-- `Bool.to_str`: canonical text is `true`/`false`. -/
def boolToStr : PyValue → String
  | .pybool true => "true"
  | .pybool false => "false"
  | _ => ""

structure PercOrIntArgs where
  noneOk : Bool := false
  minperc : Option Int := none
  maxperc : Option Int := none
  minint : Option Int := none
  maxint : Option Int := none
  deriving Repr

def strEndsPercent (s : String) : Bool :=
  match s.data.getLast? with
  | some c => c = '%'
  | none => false

def dropLastChar (s : String) : String := ⟨s.data.dropLast⟩

/-- `PercOrInt.to_py`: expects `'42%'` as a string (checked against the percent
bounds) or `23` as an integer (checked against the integer bounds); a bare
digit string fails. -/
def percOrIntToPy (a : PercOrIntArgs) (v : PyValue) : VResult PyValue :=
  match basicPyValidation a.noneOk [.sint, .sstr] v with
  | .error e => .error e
  | .ok _ =>
    match v with
    | .pynone => .ok .pynone
    | .pyint n =>
      match validateBounds a.minint a.maxint (some n) "" with
      | .error e => .error e
      | .ok _ => .ok (.pyint n)
    | .pystr s =>
      if !strEndsPercent s then
        .error ⟨.invalidFormat, "needs to end with % or be an integer"⟩
      else
        match strToInt (dropLastChar s) with
        | none => .error ⟨.invalidFormat, "invalid percentage!"⟩
        | some n =>
          match validateBounds a.minperc a.maxperc (some n) "%" with
          | .error e => .error e
          | .ok _ => .ok (.pystr s)
    | _ => .ok v

/-- `PercOrInt.from_str`: a literal ending in `%` goes down the percent path of
`to_py`; otherwise the text must parse as an integer, which goes down the
integer path. -/
def percOrIntFromStr (a : PercOrIntArgs) (s : String) : VResult PyValue :=
  match basicStrValidation a.noneOk s with
  | .error e => .error e
  | .ok _ =>
    if s.isEmpty then .ok .pynone
    else if strEndsPercent s then percOrIntToPy a (.pystr s)
    else
      match strToInt s with
      | some n => percOrIntToPy a (.pyint n)
      | none => .error ⟨.invalidFormat, "must be integer or percentage!"⟩

def percOrIntToStr : PyValue → String
  | .pyint n => intDecString n
  | .pystr s => s
  | _ => ""

/-- The inner element type of a container. -/
inductive ElemType where
  | strT (a : StringArgs)
  | intT (a : IntArgs)
  deriving Repr

def elemToPyVal : ElemType → PyValue → VResult PyValue
  | .strT a, v => stringToPy a v
  | .intT a, v => intToPy a v

/-- Validation of one container element through its inner type. -/
def elemToPy (e : ElemType) (x : PyLeaf) : VResult PyLeaf :=
  match elemToPyVal e x.toVal with
  | .error er => .error er
  | .ok w => .ok (leafOf w)

structure ListArgs where
  noneOk : Bool := false
  valtype : ElemType := .strT {}
  lengthReq : Option Nat := none
  deriving Repr

def mapElems (e : ElemType) : List PyLeaf → VResult (List PyLeaf)
  | [] => .ok []
  | x :: rest =>
    match elemToPy e x with
    | .error er => .error er
    | .ok y =>
      match mapElems e rest with
      | .error er => .error er
      | .ok ys => .ok (y :: ys)

/-- `List.to_py`: the host value must be a sequence; an absent or empty one is
the empty list when `none_ok` and an error otherwise; a wrong element count is
rejected when an exact length is required; every element is validated through
the inner type. -/
def listToPy (a : ListArgs) (v : PyValue) : VResult PyValue :=
  match basicPyValidation a.noneOk [.slist] v with
  | .error e => .error e
  | .ok _ =>
    match v with
    | .pynone => .ok (.pylist [])
    | .pylist [] =>
      if a.noneOk then .ok (.pylist [])
      else .error ⟨.emptyValue, "may not be empty!"⟩
    | .pylist l =>
      match a.lengthReq with
      | some len =>
        if l.length ≠ len then
          .error ⟨.wrongLength,
            "Exactly " ++ toString len ++ " values need to be set!"⟩
        else
          match mapElems a.valtype l with
          | .error e => .error e
          | .ok ys => .ok (.pylist ys)
      | none =>
        match mapElems a.valtype l with
        | .error e => .error e
        | .ok ys => .ok (.pylist ys)
    | _ => .ok v

/-- `List.from_str`: a JSON-array-like encoding is decoded, validated through
`to_py`, and the decoded value is returned. -/
def listFromStr (a : ListArgs) (s : String) : VResult PyValue :=
  match basicStrValidation a.noneOk s with
  | .error e => .error e
  | .ok _ =>
    if s.isEmpty then .ok .pynone
    else
      match parseJson s with
      | none => .error ⟨.invalidFormat, "invalid encoding"⟩
      | some v =>
        match listToPy a v with
        | .error e => .error e
        | .ok _ => .ok v

/-- `List.to_str`: an empty list is treated just like None and renders to the
empty string; otherwise the JSON-like dump. -/
def listToStr : PyValue → String
  | .pynone => ""
  | .pylist [] => ""
  | .pylist l => jsonDumpVal (.pylist l)
  | _ => ""

structure FlagListArgs where
  noneOk : Bool := false
  validValues : Option ValidValues := none
  combinable : Option (List String) := none
  lengthReq : Option Nat := none
  deriving Repr

def flagInner (a : FlagListArgs) : ElemType := .strT { validValues := a.validValues }

def hasDuplicates : List String → Bool
  | [] => false
  | x :: rest => rest.contains x || hasDuplicates rest

def leafStrOf : PyLeaf → Option String
  | .lstr s => some s
  | _ => none

/-- Modelled from the spec: the FlagList combination rule — any subset of
combinable tokens may co-occur; a non-combinable token may not co-occur with
any other token; an unset combinable restriction treats all tokens as mutually
combinable. -/
def combinableViolation (a : FlagListArgs) (vals : List String) : Bool :=
  match a.combinable with
  | none => false
  | some combinables =>
    decide (1 < vals.length) && vals.any (fun v => !combinables.contains v)

/-- `FlagList.to_py`: the List validation with tokens drawn from the valid
values, then the duplicate check and the combination rule. -/
def flagListToPy (a : FlagListArgs) (v : PyValue) : VResult PyValue :=
  match listToPy { noneOk := a.noneOk, valtype := flagInner a, lengthReq := a.lengthReq } v with
  | .error e => .error e
  | .ok w =>
    match w with
    | .pylist l =>
      let vals := l.filterMap leafStrOf
      if hasDuplicates vals then
        .error ⟨.duplicateValue, "List contains duplicate values!"⟩
      else if combinableViolation a vals then
        .error ⟨.invalidValue, "may not be combined"⟩
      else .ok w
    | _ => .ok w

def flagListFromStr (a : FlagListArgs) (s : String) : VResult PyValue :=
  match basicStrValidation a.noneOk s with
  | .error e => .error e
  | .ok _ =>
    if s.isEmpty then .ok .pynone
    else
      match parseJson s with
      | none => .error ⟨.invalidFormat, "invalid encoding"⟩
      | some v =>
        match flagListToPy a v with
        | .error e => .error e
        | .ok _ => .ok v

/-- Order-preserving combinations of a given size (itertools.combinations). -/
def combinationsLen {α : Type} : Nat → List α → List (List α)
  | 0, _ => [[]]
  | _ + 1, [] => []
  | k + 1, x :: xs =>
    (combinationsLen k xs).map (fun c => x :: c) ++ combinationsLen (k + 1) xs

/-- `FlagList.complete`: each single token with its description, then every
combination (size 2 and up) of the combinable tokens as comma-joined strings;
an unset combinable restriction combines all tokens. -/
def flagListComplete (a : FlagListArgs) : Option (List (String × String)) :=
  match a.validValues with
  | none => none
  | some vv =>
    let singles := vv.values.map (fun t => (t, (lookupDesc vv.descriptions t).getD ""))
    let combinables :=
      match a.combinable with
      | some c => c
      | none => vv.values
    let sizes := (List.range (combinables.length + 1)).filter (fun k => 2 ≤ k)
    let combos := sizes.flatMap (fun k =>
      (combinationsLen k combinables).map (fun c => (String.intercalate "," c, "")))
    some (singles ++ combos)

structure DictArgs where
  noneOk : Bool := false
  keytype : StringArgs := {}
  valtype : ElemType := .strT {}
  fixedKeys : Option (List String) := none
  requiredKeys : Option (List String) := none
  deriving Repr

def mapEntries (a : DictArgs) : List (String × PyLeaf) → VResult (List (String × PyLeaf))
  | [] => .ok []
  | (k, x) :: rest =>
    match stringToPy a.keytype (.pystr k) with
    | .error e => .error e
    | .ok _ =>
      match elemToPy a.valtype x with
      | .error e => .error e
      | .ok y =>
        match mapEntries a rest with
        | .error e => .error e
        | .ok ys => .ok ((k, y) :: ys)

def keysOf (es : List (String × PyLeaf)) : List String := es.map Prod.fst

def showKeys (ks : List String) : String :=
  "[" ++ String.intercalate ", " (ks.map (fun k => "'" ++ k ++ "'")) ++ "]"

/-- Modelled from the spec: the Dict key-shape contracts. Under *fixed keys*
any key outside the declared set fails and a missing declared key is filled
with the absent value; under *required keys* every declared key must be present
while extra keys are permitted. -/
def applyKeyShape (a : DictArgs) (es : List (String × PyLeaf)) :
    VResult (List (String × PyLeaf)) :=
  match a.fixedKeys with
  | some fixed =>
    if (keysOf es).any (fun k => !fixed.contains k) then
      .error ⟨.keyShape, "Expected keys " ++ showKeys fixed⟩
    else
      .ok (es ++ (fixed.filter (fun k => !(keysOf es).contains k)).map
        (fun k => (k, PyLeaf.lnone)))
  | none =>
    match a.requiredKeys with
    | some req =>
      if req.any (fun k => !(keysOf es).contains k) then
        .error ⟨.keyShape, "Required keys " ++ showKeys req⟩
      else .ok es
    | none => .ok es

/-- `Dict.to_py`: the host value must be a mapping; an absent or empty one is
the empty mapping when `none_ok` and an error otherwise; keys and values are
validated through the key and value types, then the key-shape contract runs. -/
def dictToPy (a : DictArgs) (v : PyValue) : VResult PyValue :=
  match basicPyValidation a.noneOk [.sdict] v with
  | .error e => .error e
  | .ok _ =>
    match v with
    | .pynone => .ok (.pydict [])
    | .pydict [] =>
      if a.noneOk then .ok (.pydict [])
      else .error ⟨.emptyValue, "may not be empty!"⟩
    | .pydict es =>
      match mapEntries a es with
      | .error e => .error e
      | .ok es2 =>
        match applyKeyShape a es2 with
        | .error e => .error e
        | .ok es3 => .ok (.pydict es3)
    | _ => .ok v

/-- `Dict.from_str`: a JSON-object-like encoding is decoded, validated through
`to_py`, and the decoded value is returned. -/
def dictFromStr (a : DictArgs) (s : String) : VResult PyValue :=
  match basicStrValidation a.noneOk s with
  | .error e => .error e
  | .ok _ =>
    if s.isEmpty then .ok .pynone
    else
      match parseJson s with
      | none => .error ⟨.invalidFormat, "invalid encoding"⟩
      | some v =>
        match dictToPy a v with
        | .error e => .error e
        | .ok _ => .ok v

def dictToStr : PyValue → String
  | .pynone => ""
  | .pydict [] => ""
  | .pydict es => jsonDumpVal (.pydict es)
  | _ => ""

/-- The Padding type is a Dict with the four fixed keys `top/bottom/left/right`
and non-negative integer values, wrapped into the four-field padding record. -/
def paddingDictArgs (noneOk : Bool) : DictArgs :=
  { noneOk := noneOk
    keytype := {}
    valtype := .intT { noneOk := noneOk, minval := some 0 }
    fixedKeys := some ["top", "bottom", "left", "right"] }

def lookupLeaf (es : List (String × PyLeaf)) (k : String) : Option PyLeaf :=
  (es.find? (fun e => e.1 == k)).map Prod.snd

def padFieldOf (es : List (String × PyLeaf)) (k : String) : Option Int :=
  match lookupLeaf es k with
  | some (.lint n) => some n
  | _ => none

/-- `Padding.to_py`: the Dict validation, then the empty mapping becomes the
all-sides-absent record and a full mapping becomes the four-field record. -/
def paddingToPy (noneOk : Bool) (v : PyValue) : VResult PyValue :=
  match dictToPy (paddingDictArgs noneOk) v with
  | .error e => .error e
  | .ok (.pydict []) => .ok (.pypad none none none none)
  | .ok (.pydict es) =>
    .ok (.pypad (padFieldOf es "top") (padFieldOf es "bottom")
      (padFieldOf es "left") (padFieldOf es "right"))
  | .ok w => .ok w

def paddingFromStr (noneOk : Bool) (s : String) : VResult PyValue :=
  match basicStrValidation noneOk s with
  | .error e => .error e
  | .ok _ =>
    if s.isEmpty then .ok .pynone
    else
      match parseJson s with
      | none => .error ⟨.invalidFormat, "invalid encoding"⟩
      | some v =>
        match paddingToPy noneOk v with
        | .error e => .error e
        | .ok _ => .ok v

def optIntDump : Option Int → List Char
  | none => "null".data
  | some n => (intDecString n).data

/-- `Padding.to_str`: None renders to the empty string; the four-field record
is serialised like the tuple it is. -/
def paddingToStr : PyValue → String
  | .pypad t b l r =>
    ⟨'[' :: (sepJoin [optIntDump t, optIntDump b, optIntDump l, optIntDump r] ++ [']'])⟩
  | _ => ""

/-- The outcome of compiling a pattern with the underlying regex engine:
success, a hard compile error, or an emitted warning which is
deprecation-level or not. -/
inductive ReOutcome where
  | compiled
  | failed (msg : String)
  | warned (deprecation : Bool) (msg : String)
  deriving DecidableEq, Repr

/-- How `Regex.to_py` can fail: with a caller-recoverable ValidationError, or
by passing an unknown warning through to the caller. -/
inductive RegexFailure where
  | verr (e : ValidationError)
  | passedWarning (msg : String)
  deriving DecidableEq, Repr

/-- `Regex.to_py`, parametrized by the engine's compile step: a compile error
or a deprecation-level warning becomes a hard ValidationError, while any other
warning is passed through to the caller. -/
def regexToPy (engine : String → ReOutcome) (noneOk : Bool) (v : PyValue) :
    Except RegexFailure PyValue :=
  match basicPyValidation noneOk [.sstr] v with
  | .error e => .error (.verr e)
  | .ok _ =>
    match v with
    | .pynone => .ok .pynone
    | .pystr p =>
      match engine p with
      | .compiled => .ok (.pystr p)
      | .failed m => .error (.verr ⟨.invalidFormat, "must be a valid regex - " ++ m⟩)
      | .warned true m => .error (.verr ⟨.invalidFormat, "must be a valid regex - " ++ m⟩)
      | .warned false m => .error (.passedWarning m)
    | _ => .ok v

def parenScan : List Char → Int → Int → (Int × Int)
  | [], depth, maxd => (depth, maxd)
  | c :: rest, depth, maxd =>
    if c = '(' then parenScan rest (depth + 1) (max maxd (depth + 1))
    else if c = ')' then parenScan rest (depth - 1) maxd
    else parenScan rest depth maxd

/-- Modelled from the spec: the concrete compile step of the underlying regex
engine as far as the claims exercise it — unbalanced groups fail, and a
pattern whose group nesting is excessively deep fails. -/
def modelReCompile (p : String) : ReOutcome :=
  let scan := parenScan p.data 0 0
  if scan.1 ≠ 0 then .failed "missing ), unterminated subpattern"
  else if 100 < scan.2 then .failed "too many nested groups"
  else .compiled

/-- The family of modelled config types, with their construction parameters. -/
inductive ConfigType where
  | ctString (a : StringArgs)
  | ctInt (a : IntArgs)
  | ctBool (noneOk : Bool)
  | ctPercOrInt (a : PercOrIntArgs)
  | ctList (a : ListArgs)
  | ctFlagList (a : FlagListArgs)
  | ctDict (a : DictArgs)
  | ctPadding (noneOk : Bool)
  deriving Repr

def ctToPy : ConfigType → PyValue → VResult PyValue
  | .ctString a, v => stringToPy a v
  | .ctInt a, v => intToPy a v
  | .ctBool noneOk, v => boolToPy noneOk v
  | .ctPercOrInt a, v => percOrIntToPy a v
  | .ctList a, v => listToPy a v
  | .ctFlagList a, v => flagListToPy a v
  | .ctDict a, v => dictToPy a v
  | .ctPadding noneOk, v => paddingToPy noneOk v

def ctFromStr : ConfigType → String → VResult PyValue
  | .ctString a, s => stringFromStr a s
  | .ctInt a, s => intFromStr a s
  | .ctBool noneOk, s => boolFromStr noneOk s
  | .ctPercOrInt a, s => percOrIntFromStr a s
  | .ctList a, s => listFromStr a s
  | .ctFlagList a, s => flagListFromStr a s
  | .ctDict a, s => dictFromStr a s
  | .ctPadding noneOk, s => paddingFromStr noneOk s

def ctToStr : ConfigType → PyValue → String
  | .ctString _, v => stringToStr v
  | .ctInt _, v => intToStr v
  | .ctBool _, v => boolToStr v
  | .ctPercOrInt _, v => percOrIntToStr v
  | .ctList _, v => listToStr v
  | .ctFlagList _, v => listToStr v
  | .ctDict _, v => dictToStr v
  | .ctPadding _, v => paddingToStr v

def ctNoneOk : ConfigType → Bool
  | .ctString a => a.noneOk
  | .ctInt a => a.noneOk
  | .ctBool noneOk => noneOk
  | .ctPercOrInt a => a.noneOk
  | .ctList a => a.noneOk
  | .ctFlagList a => a.noneOk
  | .ctDict a => a.noneOk
  | .ctPadding noneOk => noneOk

/-- The type's "empty" value in the spec's words (section 4.1): scalar types
have the absent value, List the empty sequence, Dict the empty mapping, and
Padding the all-sides-absent record. -/
def specEmptyValue : ConfigType → PyValue
  | .ctString _ => .pynone
  | .ctInt _ => .pynone
  | .ctBool _ => .pynone
  | .ctPercOrInt _ => .pynone
  | .ctList _ => .pylist []
  | .ctFlagList _ => .pylist []
  | .ctDict _ => .pydict []
  | .ctPadding _ => .pypad none none none none

/-! Helper predicates and validity notions used by the theorems. -/

/-- The host shapes each modelled type expects in its basic python-value
validation (the `pytype` argument each `to_py` passes). -/
def ctShapes : ConfigType → List PyShape
  | .ctString _ => [.sstr]
  | .ctInt _ => [.sint]
  | .ctBool _ => [.sbool]
  | .ctPercOrInt _ => [.sint, .sstr]
  | .ctList _ => [.slist]
  | .ctFlagList _ => [.slist]
  | .ctDict _ => [.sdict]
  | .ctPadding _ => [.sdict]

def isErr {α : Type} : Except ValidationError α → Bool
  | .error _ => true
  | .ok _ => false

def isTypeMismatch {α : Type} : Except ValidationError α → Bool
  | .error e => e.kind == .typeMismatch
  | .ok _ => false

/-- A string that passes the default `String` type's validation: non-empty and
free of unprintable characters. -/
def validStr (s : String) : Bool := !s.isEmpty && !s.data.any unprintable

def fixedDictArgs : DictArgs :=
  { valtype := .strT { noneOk := true }, fixedKeys := some ["one", "two"] }

def requiredDictArgs : DictArgs :=
  { requiredKeys := some ["one", "two"] }

def occursAt : List Char → List Char → Bool
  | [], _ => true
  | _ :: _, [] => false
  | a :: as, b :: bs => a == b && occursAt as bs

def occursIn : List Char → List Char → Bool
  | needle, [] => needle.isEmpty
  | needle, c :: rest => occursAt needle (c :: rest) || occursIn needle rest

/-- Does the completion candidate pair the token `baz` with another token
(either side of a comma)? -/
def pairsBaz (s : String) : Bool :=
  occursIn "baz,".data s.data || occursIn ",baz".data s.data

def flagListC5 : FlagListArgs :=
  { validValues := some (ValidValues.ofArgs [("foo", none), ("bar", none), ("baz", none)])
    combinable := some ["foo", "bar"] }

def flagListC5All : FlagListArgs := { flagListC5 with combinable := none }

def isVErr : Except RegexFailure PyValue → Bool
  | .error (.verr _) => true
  | _ => false

/-- The round trip of the spec's canonical-form law:
`to_str(to_py(from_str(s)))`, or `none` when a stage fails. -/
def roundTrip (t : ConfigType) (s : String) : Option String :=
  match ctFromStr t s with
  | .error _ => none
  | .ok v =>
    match ctToPy t v with
    | .error _ => none
    | .ok w => some (ctToStr t w)

/-- The trailing items of a comma-space separated join. -/
def tailJoin : List (List Char) → List Char
  | [] => []
  | y :: ys => ',' :: ' ' :: (y ++ tailJoin ys)

/-- The serialised form of one string-valued dictionary entry. -/
def entryChunk (e : String × String) : List Char :=
  quoteStr e.1 ++ ':' :: ' ' :: quoteStr e.2

theorem validStr_spec {s : String} (h : validStr s = true) :
    s.isEmpty = false ∧ s.data.any unprintable = false := by
  simpa [validStr] using h

theorem stringToPy_valid (s : String) (h : validStr s = true) :
    stringToPy {} (.pystr s) = .ok (.pystr s) := by
  obtain ⟨h1, h2⟩ := validStr_spec h
  simp [stringToPy, basicPyValidation, basicStrValidation, shapeMatches,
    validateValidValues, forbiddenHit, minlenViol, maxlenViol, h1, h2]

theorem elemToPy_valid (s : String) (h : validStr s = true) :
    elemToPy (.strT {}) (.lstr s) = .ok (.lstr s) := by
  simp [elemToPy, elemToPyVal, PyLeaf.toVal, stringToPy_valid s h, leafOf]

theorem mapElems_valid (l : List String) (h : l.all validStr = true) :
    mapElems (.strT {}) (l.map PyLeaf.lstr) = .ok (l.map PyLeaf.lstr) := by
  induction l with
  | nil => rfl
  | cons x xs ih =>
    rw [List.all_cons, Bool.and_eq_true] at h
    simp [mapElems, elemToPy_valid x h.1, ih h.2]

theorem mapEntries_keys (a : DictArgs) (es es2 : List (String × PyLeaf))
    (h : mapEntries a es = .ok es2) : keysOf es2 = keysOf es := by
  induction es generalizing es2 with
  | nil =>
    simp [mapEntries] at h
    simp [← h]
  | cons e rest ih =>
    obtain ⟨k, x⟩ := e
    rw [mapEntries] at h
    cases hs : stringToPy a.keytype (.pystr k) with
    | error er => rw [hs] at h; exact absurd h (by simp)
    | ok w =>
      rw [hs] at h
      cases he : elemToPy a.valtype x with
      | error er => rw [he] at h; exact absurd h (by simp)
      | ok y =>
        rw [he] at h
        cases hm : mapEntries a rest with
        | error er => rw [hm] at h; exact absurd h (by simp)
        | ok ys =>
          rw [hm] at h
          have hes : es2 = (k, y) :: ys := by
            simpa using h.symm
          subst hes
          have h2 := ih ys hm
          simp only [keysOf, List.map_cons]
          exact congrArg (List.cons k) h2

/-- C3: numeric bound checks are inclusive — a value exactly equal to `minval`
or `maxval` passes, one unit below `minval` or above `maxval` fails, `None`
always passes, and the failure message names the violated bound with the unit
suffix appended (for example "must be 2% or smaller!"). -/
theorem numeric_bounds_inclusive :
    (∀ (minval maxval : Option Int) (suffix : String),
      validateBounds minval maxval none suffix = .ok ()) ∧
    (∀ (m M : Int) (suffix : String), m ≤ M →
      validateBounds (some m) (some M) (some m) suffix = .ok () ∧
      validateBounds (some m) (some M) (some M) suffix = .ok ()) ∧
    (∀ (m : Int) (suffix : String),
      validateBounds (some m) none (some m) suffix = .ok ()) ∧
    (∀ (M : Int) (suffix : String),
      validateBounds none (some M) (some M) suffix = .ok ()) ∧
    (∀ (m : Int) (maxval : Option Int) (suffix : String),
      validateBounds (some m) maxval (some (m - 1)) suffix =
        .error ⟨.outOfBounds, "must be " ++ toString m ++ suffix ++ " or bigger!"⟩) ∧
    (∀ (minval : Option Int) (M : Int) (suffix : String),
      (∀ m, minval = some m → m ≤ M) →
      validateBounds minval (some M) (some (M + 1)) suffix =
        .error ⟨.outOfBounds, "must be " ++ toString M ++ suffix ++ " or smaller!"⟩) ∧
    validateBounds none (some 2) (some 3) "%" =
      .error ⟨.outOfBounds, "must be 2% or smaller!"⟩ := by
  refine ⟨?_, ?_, ?_, ?_, ?_, ?_, by decide⟩
  · intro minval maxval suffix
    rfl
  · intro m M suffix h
    constructor <;>
      simp [validateBounds, validateLower, validateUpper, not_lt.mpr h,
        not_lt.mpr (le_refl m), not_lt.mpr (le_refl M)]
  · intro m suffix
    simp [validateBounds, validateLower, validateUpper, not_lt.mpr (le_refl m)]
  · intro M suffix
    simp [validateBounds, validateLower, validateUpper, not_lt.mpr (le_refl M)]
  · intro m maxval suffix
    simp [validateBounds, validateLower, show m - 1 < m by omega]
  · intro minval M suffix h
    match minval with
    | none =>
      simp [validateBounds, validateLower, validateUpper, show M < M + 1 by omega]
    | some m =>
      have hm : ¬ (M + 1 < m) := by have := h m rfl; omega
      simp [validateBounds, validateLower, validateUpper, hm,
        show M < M + 1 by omega]

/-- C3 witness: the inclusive checks at concrete bounds. -/
theorem numeric_bounds_inclusive_witness :
    validateBounds (some 2) (some 3) (some 2) "" = .ok () ∧
    validateBounds (some 2) (some 3) (some 3) "" = .ok () ∧
    validateBounds (some 2) (some 3) (some 4) "" =
      .error ⟨.outOfBounds, "must be 3 or smaller!"⟩ :=
  ⟨(numeric_bounds_inclusive.2.1 2 3 "" (by decide)).1,
   (numeric_bounds_inclusive.2.1 2 3 "" (by decide)).2,
   by
    have := numeric_bounds_inclusive.2.2.2.2.2.1 (some 2) 3 ""
      (by intro m hm; cases hm; decide)
    simpa using this⟩

/-- C4: under the fixed-keys contract `['one','two']`, `to_py({'one':'1'})`
succeeds and auto-fills the missing declared key with the absent value, while
a key outside the declared set fails with the keys-mismatch error; under the
required-keys contract every declared key must be present and extra keys are
accepted. -/
theorem dict_key_shape_contracts :
    dictToPy fixedDictArgs (.pydict [("one", .lstr "1")]) =
      .ok (.pydict [("one", .lstr "1"), ("two", .lnone)]) ∧
    dictToPy fixedDictArgs
        (.pydict [("one", .lstr "1"), ("two", .lstr "2"), ("three", .lstr "3")]) =
      .error ⟨.keyShape, "Expected keys ['one', 'two']"⟩ ∧
    dictToPy requiredDictArgs (.pydict [("one", .lstr "1")]) =
      .error ⟨.keyShape, "Required keys ['one', 'two']"⟩ ∧
    dictToPy requiredDictArgs
        (.pydict [("one", .lstr "1"), ("two", .lstr "2"), ("three", .lstr "3")]) =
      .ok (.pydict [("one", .lstr "1"), ("two", .lstr "2"), ("three", .lstr "3")]) ∧
    (∀ (es es2 : List (String × PyLeaf)) (e : String × PyLeaf),
      mapEntries fixedDictArgs (e :: es) = .ok es2 →
      (keysOf (e :: es)).any (fun k => !(["one", "two"].contains k)) = true →
      dictToPy fixedDictArgs (.pydict (e :: es)) =
        .error ⟨.keyShape, "Expected keys ['one', 'two']"⟩) := by
  refine ⟨by decide, by decide, by decide, by decide, ?_⟩
  intro es es2 e hmap hkey
  have hkeys : keysOf es2 = keysOf (e :: es) := mapEntries_keys _ _ _ hmap
  have hcond : ((keysOf es2).any fun k => !(["one", "two"].contains k)) = true := by
    rw [hkeys]; exact hkey
  have hshape : applyKeyShape fixedDictArgs es2 =
      .error ⟨.keyShape, "Expected keys ['one', 'two']"⟩ := by
    show (if ((keysOf es2).any fun k => !(["one", "two"].contains k)) then
        (.error ⟨.keyShape, "Expected keys " ++ showKeys ["one", "two"]⟩ :
          VResult (List (String × PyLeaf)))
      else
        .ok (es2 ++ (List.filter (fun k => !(keysOf es2).contains k)
          ["one", "two"]).map (fun k => (k, PyLeaf.lnone)))) = _
    rw [hcond]
    rfl
  show (match mapEntries fixedDictArgs (e :: es) with
      | .error err => (.error err : VResult PyValue)
      | .ok es2 =>
        match applyKeyShape fixedDictArgs es2 with
        | .error err => .error err
        | .ok es3 => .ok (.pydict es3)) =
    .error ⟨.keyShape, "Expected keys ['one', 'two']"⟩
  rw [hmap]
  show (match applyKeyShape fixedDictArgs es2 with
      | .error err => (.error err : VResult PyValue)
      | .ok es3 => .ok (.pydict es3)) =
    .error ⟨.keyShape, "Expected keys ['one', 'two']"⟩
  rw [hshape]

/-- C4 witness: the universal extra-key conjunct applied to the concrete
mapping of the test suite. -/
theorem dict_key_shape_contracts_witness :
    dictToPy fixedDictArgs
        (.pydict [("one", .lstr "1"), ("three", .lstr "3")]) =
      .error ⟨.keyShape, "Expected keys ['one', 'two']"⟩ :=
  dict_key_shape_contracts.2.2.2.2 [("three", .lstr "3")]
    [("one", .lstr "1"), ("three", .lstr "3")] ("one", .lstr "1")
    (by decide) (by decide)

/-- C5: for a FlagList with combinable tokens `{foo, bar}` inside the universe
`{foo, bar, baz}`: `to_py(['foo','bar'])` succeeds, `to_py(['baz','foo'])`
fails, `to_py(['foo','foo'])` fails as a duplicate, `complete()` offers
`'foo,bar'` and never pairs `baz` with another token; with the combinable set
unset all tokens combine, so `complete()` offers every subset combination,
including both `'foo,bar'` and `'foo,baz'`. -/
theorem flaglist_combination_rule :
    flagListToPy flagListC5 (.pylist [.lstr "foo", .lstr "bar"]) =
      .ok (.pylist [.lstr "foo", .lstr "bar"]) ∧
    flagListToPy flagListC5 (.pylist [.lstr "baz", .lstr "foo"]) =
      .error ⟨.invalidValue, "may not be combined"⟩ ∧
    flagListToPy flagListC5 (.pylist [.lstr "foo", .lstr "foo"]) =
      .error ⟨.duplicateValue, "List contains duplicate values!"⟩ ∧
    (flagListComplete flagListC5).map (fun cs => cs.map Prod.fst) =
      some ["foo", "bar", "baz", "foo,bar"] ∧
    (((flagListComplete flagListC5).getD []).all fun c => !pairsBaz c.1) = true ∧
    (flagListComplete flagListC5All).map (fun cs => cs.map Prod.fst) =
      some ["foo", "bar", "baz", "foo,bar", "foo,baz", "bar,baz", "foo,bar,baz"] ∧
    (((flagListComplete flagListC5All).getD []).map Prod.fst).contains "foo,bar" = true ∧
    (((flagListComplete flagListC5All).getD []).map Prod.fst).contains "foo,baz" = true := by
  refine ⟨?_, ?_, ?_, ?_, ?_, ?_, ?_, ?_⟩ <;> decide

/-- C6: a List constructed with an exact length of 3 accepts a list of exactly
3 valid elements and rejects lists of 1, 2 or 4 elements with the message
"Exactly 3 values need to be set!". -/
theorem list_exact_length_three (s1 s2 s3 : String)
    (h1 : validStr s1 = true) (h2 : validStr s2 = true) (h3 : validStr s3 = true) :
    listToPy { lengthReq := some 3 } (.pylist [.lstr s1, .lstr s2, .lstr s3]) =
      .ok (.pylist [.lstr s1, .lstr s2, .lstr s3]) ∧
    listToPy { lengthReq := some 3 } (.pylist [.lstr "a"]) =
      .error ⟨.wrongLength, "Exactly 3 values need to be set!"⟩ ∧
    listToPy { lengthReq := some 3 } (.pylist [.lstr "a", .lstr "b"]) =
      .error ⟨.wrongLength, "Exactly 3 values need to be set!"⟩ ∧
    listToPy { lengthReq := some 3 }
        (.pylist [.lstr "a", .lstr "b", .lstr "c", .lstr "d"]) =
      .error ⟨.wrongLength, "Exactly 3 values need to be set!"⟩ := by
  refine ⟨?_, by decide, by decide, by decide⟩
  have hmap := mapElems_valid [s1, s2, s3] (by simp [h1, h2, h3])
  simp only [List.map_cons, List.map_nil] at hmap
  show (match mapElems (.strT {}) [.lstr s1, .lstr s2, .lstr s3] with
      | .error e => (.error e : VResult PyValue)
      | .ok ys => .ok (.pylist ys)) = _
  rw [hmap]

/-- C6 witness: the accepting conjunct at a concrete 3-element list. -/
theorem list_exact_length_three_witness :
    listToPy { lengthReq := some 3 } (.pylist [.lstr "a", .lstr "b", .lstr "c"]) =
      .ok (.pylist [.lstr "a", .lstr "b", .lstr "c"]) :=
  (list_exact_length_three "a" "b" "c" (by decide) (by decide) (by decide)).1

theorem basicPy_mismatch (noneOk : Bool) (shapes : List PyShape) (v : PyValue)
    (hv : v ≠ .pynone) (hs : (shapes.any fun sh => shapeMatches sh v) = false) :
    basicPyValidation noneOk shapes v =
      .error ⟨.typeMismatch,
        "expected a value of type " ++ expectedNames shapes ++ " but got " ++
          pyTypeName v ++ "."⟩ := by
  cases v with
  | pynone => exact absurd rfl hv
  | pybool b => simp [basicPyValidation, hs]
  | pyint n => simp [basicPyValidation, hs]
  | pystr s => simp [basicPyValidation, hs]
  | pylist l => simp [basicPyValidation, hs]
  | pydict es => simp [basicPyValidation, hs]
  | pypad t b l r => simp [basicPyValidation, hs]
  | pyobj => simp [basicPyValidation, hs]

/-- C7: for every modelled config type, `to_py` of any host value whose shape
does not match the type's expectation (for example an opaque object where a
string or number is expected, or a sequence where a scalar is expected) fails
with a TypeMismatch validation error, before any domain-specific rule is
applied. -/
theorem to_py_shape_mismatch_fails (t : ConfigType) (v : PyValue)
    (hv : v ≠ .pynone)
    (hs : ((ctShapes t).any fun sh => shapeMatches sh v) = false) :
    isTypeMismatch (ctToPy t v) = true := by
  cases t with
  | ctString a =>
    have hb := basicPy_mismatch a.noneOk [.sstr] v hv hs
    simp [ctToPy, stringToPy, hb, isTypeMismatch]
  | ctInt a =>
    have hb := basicPy_mismatch a.noneOk [.sint] v hv hs
    simp [ctToPy, intToPy, hb, isTypeMismatch]
  | ctBool noneOk =>
    have hb := basicPy_mismatch noneOk [.sbool] v hv hs
    simp [ctToPy, boolToPy, hb, isTypeMismatch]
  | ctPercOrInt a =>
    have hb := basicPy_mismatch a.noneOk [.sint, .sstr] v hv hs
    simp [ctToPy, percOrIntToPy, hb, isTypeMismatch]
  | ctList a =>
    have hb := basicPy_mismatch a.noneOk [.slist] v hv hs
    simp [ctToPy, listToPy, hb, isTypeMismatch]
  | ctFlagList a =>
    have hb := basicPy_mismatch a.noneOk [.slist] v hv hs
    simp [ctToPy, flagListToPy, listToPy, hb, isTypeMismatch]
  | ctDict a =>
    have hb := basicPy_mismatch a.noneOk [.sdict] v hv hs
    simp [ctToPy, dictToPy, hb, isTypeMismatch]
  | ctPadding noneOk =>
    have hb := basicPy_mismatch noneOk [.sdict] v hv hs
    simp [ctToPy, paddingToPy, dictToPy, paddingDictArgs, hb, isTypeMismatch]

/-- C7 witness: the shape-mismatch failure at concrete mismatched inputs — a
sequence where a scalar is expected, a scalar where a sequence is expected,
and an opaque object. -/
theorem to_py_shape_mismatch_fails_witness :
    isTypeMismatch (ctToPy (.ctInt {}) (.pylist [])) = true ∧
    isTypeMismatch (ctToPy (.ctList {}) (.pystr "x")) = true ∧
    isTypeMismatch (ctToPy (.ctString {}) .pyobj) = true :=
  ⟨to_py_shape_mismatch_fails (.ctInt {}) (.pylist []) (by decide) (by decide),
   to_py_shape_mismatch_fails (.ctList {}) (.pystr "x") (by decide) (by decide),
   to_py_shape_mismatch_fails (.ctString {}) .pyobj (by decide) (by decide)⟩

/-- C10: PercOrInt accepts a bare integer literal only through `from_str`:
`from_str('1337')` yields the integer 1337 and `to_py` accepts the integer
1337 and the string `'1337%'`, but `to_py('1337')` fails. -/
theorem perc_or_int_paths :
    percOrIntFromStr {} "1337" = .ok (.pyint 1337) ∧
    percOrIntToPy {} (.pyint 1337) = .ok (.pyint 1337) ∧
    percOrIntToPy {} (.pystr "1337%") = .ok (.pystr "1337%") ∧
    percOrIntToPy {} (.pystr "1337") =
      .error ⟨.invalidFormat, "needs to end with % or be an integer"⟩ := by
  refine ⟨?_, ?_, ?_, ?_⟩ <;> decide

set_option maxRecDepth 8000 in
/-- C9: when compiling a pattern emits a deprecation-level warning from the
underlying engine, Regex validation turns it into a hard ValidationError
rather than passing the warning through; and a pattern of 500 opening
parentheses fails validation. -/
theorem regex_deprecation_and_nesting (engine : String → ReOutcome) (p m : String)
    (hv : validStr p = true) (hw : engine p = .warned true m) :
    regexToPy engine false (.pystr p) =
      .error (.verr ⟨.invalidFormat, "must be a valid regex - " ++ m⟩) ∧
    isVErr (regexToPy modelReCompile false (.pystr ⟨List.replicate 500 '('⟩)) = true := by
  constructor
  · obtain ⟨h1, h2⟩ := validStr_spec hv
    simp [regexToPy, basicPyValidation, basicStrValidation, shapeMatches, h1, h2, hw]
  · decide

/-- C9 witness: a deprecation-warning engine at a concrete pattern. -/
theorem regex_deprecation_and_nesting_witness :
    regexToPy (fun _ => .warned true "bad escape") false (.pystr "foo") =
      .error (.verr ⟨.invalidFormat, "must be a valid regex - bad escape"⟩) :=
  (regex_deprecation_and_nesting (fun _ => .warned true "bad escape") "foo"
    "bad escape" (by decide) rfl).1

/-- C1 counterexample: the claim says that with `none_ok=true` a List's
`from_str('')` yields the type's empty value, the empty sequence; the engine
(pinned by TestAll.test_none_ok_true, which asserts `from_str('') is None` for
every type) yields the absent value instead, which is not the empty sequence. -/
theorem none_ok_empty_from_str_counterexample :
    ctFromStr (.ctList { noneOk := true }) "" = .ok .pynone ∧
    (Except.ok PyValue.pynone : VResult PyValue) ≠
      .ok (specEmptyValue (.ctList { noneOk := true })) := by
  exact ⟨rfl, by decide⟩

/-- C1 (amended): with `none_ok=true` every type's `from_str('')` yields the
absent value None, `to_py(None)` yields the type's empty value (scalar types:
the absent value; List: the empty sequence; Dict: the empty mapping; Padding:
the all-sides-absent record), and `to_str(None)` yields the empty string; with
`none_ok=false` each of `from_str('')`, `to_py('')` and `to_py(None)` fails
with a ValidationError. -/
theorem none_ok_behaviour (t : ConfigType) :
    (ctNoneOk t = true →
      ctFromStr t "" = .ok .pynone ∧
      ctToPy t .pynone = .ok (specEmptyValue t) ∧
      ctToStr t .pynone = "") ∧
    (ctNoneOk t = false →
      isErr (ctFromStr t "") = true ∧
      isErr (ctToPy t (.pystr "")) = true ∧
      isErr (ctToPy t .pynone) = true) := by
  cases t with
  | ctString a =>
    obtain ⟨nk, ml, mx, fb, vv, cp⟩ := a
    exact ⟨fun h => by subst h; exact ⟨rfl, rfl, rfl⟩,
           fun h => by subst h; exact ⟨rfl, rfl, rfl⟩⟩
  | ctInt a =>
    obtain ⟨nk, mn, mx⟩ := a
    exact ⟨fun h => by subst h; exact ⟨rfl, rfl, rfl⟩,
           fun h => by subst h; exact ⟨rfl, rfl, rfl⟩⟩
  | ctBool nk =>
    exact ⟨fun h => by subst h; exact ⟨rfl, rfl, rfl⟩,
           fun h => by subst h; exact ⟨rfl, rfl, rfl⟩⟩
  | ctPercOrInt a =>
    obtain ⟨nk, a1, a2, a3, a4⟩ := a
    exact ⟨fun h => by subst h; exact ⟨rfl, rfl, rfl⟩,
           fun h => by subst h; exact ⟨rfl, rfl, rfl⟩⟩
  | ctList a =>
    obtain ⟨nk, vt, ln⟩ := a
    exact ⟨fun h => by subst h; exact ⟨rfl, rfl, rfl⟩,
           fun h => by subst h; exact ⟨rfl, rfl, rfl⟩⟩
  | ctFlagList a =>
    obtain ⟨nk, vv, cb, ln⟩ := a
    refine ⟨fun h => ?_, fun h => ?_⟩
    · subst h
      cases cb <;> exact ⟨rfl, rfl, rfl⟩
    · subst h
      exact ⟨rfl, rfl, rfl⟩
  | ctDict a =>
    obtain ⟨nk, kt, vt, fk, rk⟩ := a
    exact ⟨fun h => by subst h; exact ⟨rfl, rfl, rfl⟩,
           fun h => by subst h; exact ⟨rfl, rfl, rfl⟩⟩
  | ctPadding nk =>
    exact ⟨fun h => by subst h; exact ⟨rfl, rfl, rfl⟩,
           fun h => by subst h; exact ⟨rfl, rfl, rfl⟩⟩

/-- C1 witness: the amended claim at concrete types with each `none_ok`. -/
theorem none_ok_behaviour_witness :
    ctToPy (.ctDict { noneOk := true }) .pynone =
      .ok (specEmptyValue (.ctDict { noneOk := true })) ∧
    isErr (ctFromStr (.ctString {}) "") = true :=
  ⟨((none_ok_behaviour (.ctDict { noneOk := true })).1 rfl).2.1,
   ((none_ok_behaviour (.ctString {})).2 rfl).1⟩

theorem lookupDesc_mem (d : List (String × String)) (p : String × String)
    (hp : p ∈ d) (hnd : (d.map Prod.fst).Nodup) : lookupDesc d p.1 = some p.2 := by
  induction d with
  | nil => cases hp
  | cons q rest ih =>
    rw [List.map_cons, List.nodup_cons] at hnd
    rcases List.mem_cons.mp hp with h | h
    · subst h
      simp [lookupDesc]
    · have hne : ¬ (q.1 = p.1) := by
        intro he
        exact hnd.1 (by rw [he]; exact List.mem_map_of_mem Prod.fst h)
      simp only [lookupDesc, if_neg hne]
      exact ih h hnd.2

theorem descArgs_keys_sublist (l : List (String × Option String)) :
    ((descArgs l).map Prod.fst).Sublist (l.map Prod.fst) := by
  induction l with
  | nil => simp [descArgs]
  | cons x xs ih =>
    cases hx : x.2 with
    | none =>
      simp only [descArgs, List.filterMap_cons, hx, Option.map_none, List.map_cons]
      exact ih.cons _
    | some d =>
      simp only [descArgs, List.filterMap_cons, hx, Option.map_some, List.map_cons]
      exact ih.cons₂ _

/-- C8: equality of two ValidValues depends only on the token set and the
descriptions, not on insertion order — two ValidValues built from the same
tokens and descriptions in any order compare equal — while iteration yields
the tokens in insertion order. -/
theorem validvalues_equality_ignores_order (l1 l2 : List (String × Option String))
    (hperm : l1.Perm l2) (hnd : (l1.map Prod.fst).Nodup) :
    ValidValues.beq (ValidValues.ofArgs l1) (ValidValues.ofArgs l2) = true ∧
    (ValidValues.ofArgs l1).values = l1.map Prod.fst ∧
    (ValidValues.ofArgs l2).values = l2.map Prod.fst := by
  have hpermv : (l1.map Prod.fst).Perm (l2.map Prod.fst) := hperm.map _
  have hnd2 : (l2.map Prod.fst).Nodup := hpermv.nodup hnd
  have hpermd : (descArgs l1).Perm (descArgs l2) := hperm.filterMap _
  have hndd2 : ((descArgs l2).map Prod.fst).Nodup := hnd2.sublist (descArgs_keys_sublist l2)
  have hndd1 : ((descArgs l1).map Prod.fst).Nodup := hnd.sublist (descArgs_keys_sublist l1)
  refine ⟨?_, rfl, rfl⟩
  have g1 : ((l1.map Prod.fst).all fun v => (l2.map Prod.fst).contains v) = true := by
    rw [List.all_eq_true]
    intro x hx
    exact List.elem_eq_true_of_mem (hpermv.subset hx)
  have g2 : ((l2.map Prod.fst).all fun v => (l1.map Prod.fst).contains v) = true := by
    rw [List.all_eq_true]
    intro x hx
    exact List.elem_eq_true_of_mem (hpermv.symm.subset hx)
  have g3 : ((descArgs l1).all fun p => lookupDesc (descArgs l2) p.1 == some p.2) = true := by
    rw [List.all_eq_true]
    intro p hp
    have := lookupDesc_mem (descArgs l2) p (hpermd.subset hp) hndd2
    simpa using this
  have g4 : ((descArgs l2).all fun p => lookupDesc (descArgs l1) p.1 == some p.2) = true := by
    rw [List.all_eq_true]
    intro p hp
    have := lookupDesc_mem (descArgs l1) p (hpermd.symm.subset hp) hndd1
    simpa using this
  show (((l1.map Prod.fst).all fun v => (l2.map Prod.fst).contains v) &&
      ((l2.map Prod.fst).all fun v => (l1.map Prod.fst).contains v) &&
      ((descArgs l1).all fun p => lookupDesc (descArgs l2) p.1 == some p.2) &&
      ((descArgs l2).all fun p => lookupDesc (descArgs l1) p.1 == some p.2)) = true
  rw [g1, g2, g3, g4]
  rfl

/-- C8 witness: two concrete ValidValues built from the same tokens and
descriptions in opposite insertion orders compare equal. -/
theorem validvalues_equality_ignores_order_witness :
    ValidValues.beq
      (ValidValues.ofArgs [("foo", some "foo desc"), ("bar", none)])
      (ValidValues.ofArgs [("bar", none), ("foo", some "foo desc")]) = true ∧
    (ValidValues.ofArgs [("foo", some "foo desc"), ("bar", none)]).values =
      ["foo", "bar"] :=
  ⟨(validvalues_equality_ignores_order
      [("foo", some "foo desc"), ("bar", none)]
      [("bar", none), ("foo", some "foo desc")]
      (by decide) (by decide)).1,
   (validvalues_equality_ignores_order
      [("foo", some "foo desc"), ("bar", none)]
      [("bar", none), ("foo", some "foo desc")]
      (by decide) (by decide)).2.1⟩

/-! Decimal rendering round-trips through the integer parser: the groundwork
for the canonical-form law of the Int type. -/

theorem digitCharOf_toNat (d : Nat) (h : d < 10) : (digitCharOf d).toNat = 48 + d := by
  interval_cases d <;> decide

theorem digitVal_digitCharOf (d : Nat) (h : d < 10) : digitVal (digitCharOf d) = d := by
  interval_cases d <;> decide

theorem isDig_digitCharOf (d : Nat) (h : d < 10) : isDig (digitCharOf d) = true := by
  interval_cases d <;> decide

theorem natDecChars_ne_nil (n : Nat) : natDecChars n ≠ [] := by
  rw [natDecChars]
  by_cases h : n < 10
  · rw [dif_pos h]; simp
  · rw [dif_neg h]; simp

theorem natDecChars_digits (n : Nat) : (natDecChars n).all isDig = true := by
  induction n using Nat.strong_induction_on with
  | _ n ih =>
    rw [natDecChars]
    by_cases h : n < 10
    · rw [dif_pos h]
      simp [isDig_digitCharOf n h]
    · rw [dif_neg h]
      rw [List.all_append]
      rw [ih (n / 10) (Nat.div_lt_self (by omega) (by omega))]
      simp [isDig_digitCharOf (n % 10) (Nat.mod_lt _ (by omega))]

theorem decValue_append (ds : List Char) (c : Char) :
    decValue (ds ++ [c]) = 10 * decValue ds + digitVal c := by
  simp [decValue, List.foldl_append]

theorem decValue_natDecChars (n : Nat) : decValue (natDecChars n) = n := by
  induction n using Nat.strong_induction_on with
  | _ n ih =>
    rw [natDecChars]
    by_cases h : n < 10
    · rw [dif_pos h]
      simp [decValue, digitVal_digitCharOf n h]
    · rw [dif_neg h]
      rw [decValue_append]
      rw [ih (n / 10) (Nat.div_lt_self (by omega) (by omega))]
      rw [digitVal_digitCharOf (n % 10) (Nat.mod_lt _ (by omega))]
      omega

theorem strToInt_mk_cons (c : Char) (cs : List Char) :
    strToInt ⟨c :: cs⟩ =
      if c = '-' then
        if !cs.isEmpty && cs.all isDig then some (-(decValue cs : Int)) else none
      else if c = '+' then
        if !cs.isEmpty && cs.all isDig then some ((decValue cs : Nat) : Int) else none
      else if (c :: cs).all isDig then some ((decValue (c :: cs) : Nat) : Int)
      else none := rfl

theorem isDig_ne_minus {c : Char} (h : isDig c = true) : ¬ (c = '-') := by
  intro he
  subst he
  exact absurd h (by decide)

theorem isDig_ne_plus {c : Char} (h : isDig c = true) : ¬ (c = '+') := by
  intro he
  subst he
  exact absurd h (by decide)

theorem strToInt_intDecString (n : Int) : strToInt (intDecString n) = some n := by
  by_cases hn : n < 0
  · rw [intDecString, if_pos hn, strToInt_mk_cons, if_pos rfl]
    have h1 : (natDecChars n.natAbs).isEmpty = false := by
      cases hne : natDecChars n.natAbs with
      | nil => exact absurd hne (natDecChars_ne_nil _)
      | cons c cs => rfl
    rw [h1, natDecChars_digits]
    simp only [Bool.not_false, Bool.and_self, if_pos]
    rw [decValue_natDecChars]
    congr 1
    omega
  · rw [intDecString, if_neg hn]
    obtain ⟨c, cs, hcons⟩ := List.exists_cons_of_ne_nil (natDecChars_ne_nil n.natAbs)
    rw [hcons, strToInt_mk_cons]
    have hall : (c :: cs).all isDig = true := by
      rw [← hcons]; exact natDecChars_digits _
    have hc : isDig c = true := by
      rw [List.all_cons, Bool.and_eq_true] at hall
      exact hall.1
    rw [if_neg (isDig_ne_minus hc), if_neg (isDig_ne_plus hc), if_pos hall]
    rw [← hcons, decValue_natDecChars]
    congr 1
    omega

theorem mk_isEmpty_false (c : Char) (cs : List Char) :
    (⟨c :: cs⟩ : String).isEmpty = false := by
  rw [Bool.eq_false_iff]
  intro hemp
  have h : (⟨c :: cs⟩ : String) = "" := (String.isEmpty_iff _).mp hemp
  have h2 : c :: cs = [] := congrArg String.data h
  exact absurd h2 (by simp)

theorem digit_not_unprintable {c : Char} (h : isDig c = true) : unprintable c = false := by
  rw [isDig, Bool.and_eq_true, decide_eq_true_eq, decide_eq_true_eq] at h
  rw [unprintable, Bool.or_eq_false_iff]
  constructor
  · simp only [decide_eq_false_iff_not]
    omega
  · exact beq_false_of_ne (by omega)

theorem natDecChars_printable (n : Nat) : (natDecChars n).any unprintable = false := by
  rw [List.any_eq_false]
  intro c hc
  have hall := natDecChars_digits n
  rw [List.all_eq_true] at hall
  simp [digit_not_unprintable (hall c hc)]

theorem intDecString_printable (n : Int) : (intDecString n).data.any unprintable = false := by
  rw [intDecString]
  by_cases hn : n < 0
  · rw [if_pos hn]
    show (('-' :: natDecChars n.natAbs).any unprintable) = false
    rw [List.any_cons, Bool.or_eq_false_iff]
    exact ⟨by decide, natDecChars_printable _⟩
  · rw [if_neg hn]
    exact natDecChars_printable _

theorem intDecString_isEmpty_false (n : Int) : (intDecString n).isEmpty = false := by
  rw [intDecString]
  by_cases hn : n < 0
  · rw [if_pos hn]
    exact mk_isEmpty_false _ _
  · rw [if_neg hn]
    obtain ⟨c, cs, hcons⟩ := List.exists_cons_of_ne_nil (natDecChars_ne_nil n.natAbs)
    rw [hcons]
    exact mk_isEmpty_false _ _

theorem basicStr_ok_of_valid {s : String} (h1 : s.isEmpty = false)
    (h2 : s.data.any unprintable = false) (noneOk : Bool) :
    basicStrValidation noneOk s = .ok () := by
  simp [basicStrValidation, h1, h2]

theorem intToPy_nobounds (n : Int) : intToPy {} (.pyint n) = .ok (.pyint n) := rfl

theorem intFromStr_canonical (n : Int) :
    intFromStr {} (intDecString n) = .ok (.pyint n) := by
  have h1 := intDecString_isEmpty_false n
  have h2 := intDecString_printable n
  have hb := basicStr_ok_of_valid h1 h2 false
  simp only [intFromStr, hb, h1, Bool.false_eq_true, if_false, strToInt_intDecString n,
    intToPy_nobounds n]

theorem int_roundTrip_general (s : String) (n : Int)
    (h : intFromStr {} s = .ok (.pyint n)) :
    roundTrip (.ctInt {}) s = some (intDecString n) := by
  simp only [roundTrip, ctFromStr, ctToPy, ctToStr, h, intToPy_nobounds n, intToStr]

theorem string_roundTrip (s : String) (h : validStr s = true) :
    roundTrip (.ctString {}) s = some s := by
  obtain ⟨h1, h2⟩ := validStr_spec h
  have hb := basicStr_ok_of_valid h1 h2 false
  have hf : stringFromStr {} s = .ok (.pystr s) := by
    simp only [stringFromStr, hb, h1, Bool.false_eq_true, if_false, stringToPy_valid s h]
  simp only [roundTrip, ctFromStr, ctToPy, ctToStr, hf, stringToPy_valid s h, stringToStr]

theorem sepJoin_cons (x : List Char) (xs : List (List Char)) :
    sepJoin (x :: xs) = x ++ tailJoin xs := by
  induction xs generalizing x with
  | nil => simp [sepJoin, tailJoin]
  | cons y ys ih =>
    show x ++ ',' :: ' ' :: sepJoin (y :: ys) = _
    rw [ih y]
    simp [tailJoin]

theorem parseStrBody_escChars (cs rest : List Char) :
    parseStrBody (escChars cs ++ '"' :: rest) = some (cs, rest) := by
  induction cs with
  | nil =>
    show parseStrBody ('"' :: rest) = some ([], rest)
    rw [parseStrBody.eq_def]
    simp
  | cons c cs ih =>
    by_cases hc : c = '"' ∨ c = '\\'
    · have he : escChar c = ['\\', c] := by
        rcases hc with h | h <;> simp [escChar, h]
      have hcor : (c = '"' || c = '\\') = true := by
        rcases hc with h | h <;> simp [h]
      rw [escChars, he]
      show parseStrBody ('\\' :: c :: (escChars cs ++ '"' :: rest)) = _
      rw [parseStrBody.eq_def]
      simp [hcor, ih]
    · push_neg at hc
      rw [escChars]
      have he : escChar c = [c] := by
        simp [escChar, hc.1, hc.2]
      rw [he]
      show parseStrBody (c :: (escChars cs ++ '"' :: rest)) = _
      rw [parseStrBody.eq_def]
      simp [hc.1, hc.2, ih]

theorem parseLeaf_quoted (cs rest : List Char) :
    parseLeaf ('"' :: (escChars cs ++ '"' :: rest)) = some (.lstr ⟨cs⟩, rest) := by
  rw [parseLeaf.eq_def]
  simp [parseStrBody_escChars]

theorem parseListTail_quoted (vs : List String) (fuel : Nat) (rest : List Char)
    (hf : vs.length ≤ fuel) :
    parseListTail fuel (tailJoin (vs.map quoteStr) ++ ']' :: rest) =
      some (vs.map PyLeaf.lstr, rest) := by
  induction vs generalizing fuel rest with
  | nil =>
    show parseListTail fuel (']' :: rest) = some ([], rest)
    rw [parseListTail.eq_def]
    simp
  | cons v vs ih =>
    cases fuel with
    | zero => simp at hf
    | succ f =>
      have hstep : tailJoin ((v :: vs).map quoteStr) ++ ']' :: rest =
          ',' :: ' ' :: ('"' :: (escChars v.data ++
            '"' :: (tailJoin (vs.map quoteStr) ++ ']' :: rest))) := by
        simp [tailJoin, quoteStr, List.append_assoc]
      rw [hstep]
      rw [parseListTail.eq_def]
      simp only [List.length_cons] at hf
      simp [parseLeaf_quoted, ih f rest (by omega)]

theorem tailJoin_length_ge (L : List (List Char)) : L.length ≤ (tailJoin L).length := by
  induction L with
  | nil => simp [tailJoin]
  | cons y ys ih =>
    simp only [tailJoin, List.length_cons, List.length_append]
    omega

theorem map_leafDump_lstr (l : List String) :
    (l.map PyLeaf.lstr).map leafDump = l.map quoteStr := by
  induction l with
  | nil => rfl
  | cons x xs ih => simp [leafDump, ih]

theorem parseJson_listDump (v : String) (vs : List String) :
    parseJson (jsonDumpVal (.pylist ((v :: vs).map PyLeaf.lstr))) =
      some (.pylist ((v :: vs).map PyLeaf.lstr)) := by
  have hdata : (jsonDumpVal (.pylist ((v :: vs).map PyLeaf.lstr))).data =
      '[' :: ('"' :: (escChars v.data ++
        '"' :: (tailJoin (vs.map quoteStr) ++ ']' :: []))) := by
    show '[' :: (sepJoin (((v :: vs).map PyLeaf.lstr).map leafDump) ++ [']']) = _
    rw [map_leafDump_lstr]
    simp [List.map_cons, sepJoin_cons, quoteStr, List.append_assoc]
  have hlen : vs.length ≤ (jsonDumpVal (.pylist ((v :: vs).map PyLeaf.lstr))).length := by
    have hl : (jsonDumpVal (.pylist ((v :: vs).map PyLeaf.lstr))).length =
        ('[' :: ('"' :: (escChars v.data ++
          '"' :: (tailJoin (vs.map quoteStr) ++ ']' :: [])))).length := by
      show (jsonDumpVal (.pylist ((v :: vs).map PyLeaf.lstr))).data.length = _
      rw [hdata]
    rw [hl]
    have h2 := tailJoin_length_ge (vs.map quoteStr)
    rw [List.length_map] at h2
    simp [List.length_append]
    omega
  rw [parseJson.eq_def]
  rw [hdata]
  have hpt := parseListTail_quoted vs
    ((jsonDumpVal (.pylist (PyLeaf.lstr v :: vs.map PyLeaf.lstr))).length) []
    (by exact hlen)
  simp [parseLeaf_quoted, hpt]

theorem escChar_any (c : Char) : (escChar c).any unprintable = unprintable c := by
  unfold escChar
  by_cases hc : (c = '"' || c = '\\') = true
  · rw [if_pos hc]
    simp [List.any_cons, show unprintable '\\' = false from rfl]
  · rw [if_neg hc]
    simp [List.any_cons]

theorem escChars_any (cs : List Char) :
    (escChars cs).any unprintable = cs.any unprintable := by
  induction cs with
  | nil => rfl
  | cons c cs ih =>
    rw [escChars, List.any_append, escChar_any, ih, List.any_cons]

theorem quoteStr_any (s : String) :
    (quoteStr s).any unprintable = s.data.any unprintable := by
  rw [quoteStr, List.any_cons, List.any_append, escChars_any, List.any_cons, List.any_nil]
  simp [show unprintable '"' = false from rfl]

theorem tailJoin_any_printable (vs : List String)
    (h : ∀ s ∈ vs, s.data.any unprintable = false) :
    (tailJoin (vs.map quoteStr)).any unprintable = false := by
  induction vs with
  | nil => rfl
  | cons v vs ih =>
    rw [List.map_cons, tailJoin, List.any_cons, List.any_cons, List.any_append, quoteStr_any]
    simp [h v (by simp), ih (fun s hs => h s (by simp [hs])),
      show unprintable ',' = false from rfl, show unprintable ' ' = false from rfl]

theorem listDump_printable (v : String) (vs : List String)
    (h : ∀ s ∈ v :: vs, s.data.any unprintable = false) :
    (jsonDumpVal (.pylist ((v :: vs).map PyLeaf.lstr))).data.any unprintable = false := by
  show ('[' :: (sepJoin (((v :: vs).map PyLeaf.lstr).map leafDump) ++ [']'])).any
    unprintable = false
  rw [map_leafDump_lstr, List.map_cons, sepJoin_cons, List.any_cons, List.any_append,
    List.any_append, quoteStr_any, tailJoin_any_printable vs (fun s hs => h s (by simp [hs]))]
  simp [h v (by simp), show unprintable '[' = false from rfl,
    show unprintable ']' = false from rfl]

theorem listToPy_valid_nonempty (v : String) (vs : List String)
    (hv : (v :: vs).all validStr = true) :
    listToPy {} (.pylist ((v :: vs).map PyLeaf.lstr)) =
      .ok (.pylist ((v :: vs).map PyLeaf.lstr)) := by
  have hmap := mapElems_valid (v :: vs) hv
  simp only [List.map_cons] at hmap ⊢
  show (match mapElems (.strT {}) (PyLeaf.lstr v :: vs.map PyLeaf.lstr) with
      | .error e => (.error e : VResult PyValue)
      | .ok ys => .ok (.pylist ys)) = _
  rw [hmap]

theorem listFromStr_canonical (v : String) (vs : List String)
    (hv : (v :: vs).all validStr = true) :
    listFromStr {} (jsonDumpVal (.pylist ((v :: vs).map PyLeaf.lstr))) =
      .ok (.pylist ((v :: vs).map PyLeaf.lstr)) := by
  have hp : ∀ s ∈ v :: vs, s.data.any unprintable = false := by
    intro s hs
    exact (validStr_spec ((List.all_eq_true.mp hv) s hs)).2
  have h2 := listDump_printable v vs hp
  have h1 : (jsonDumpVal (.pylist ((v :: vs).map PyLeaf.lstr))).isEmpty = false :=
    mk_isEmpty_false _ _
  have hb := basicStr_ok_of_valid h1 h2 false
  simp only [listFromStr, hb, h1, Bool.false_eq_true, if_false,
    parseJson_listDump v vs, listToPy_valid_nonempty v vs hv]

theorem list_roundTrip (v : String) (vs : List String)
    (hv : (v :: vs).all validStr = true) :
    roundTrip (.ctList {}) (listToStr (.pylist ((v :: vs).map PyLeaf.lstr))) =
      some (listToStr (.pylist ((v :: vs).map PyLeaf.lstr))) := by
  have hls : listToStr (.pylist ((v :: vs).map PyLeaf.lstr)) =
      jsonDumpVal (.pylist ((v :: vs).map PyLeaf.lstr)) := by
    simp only [List.map_cons]
    rfl
  rw [hls]
  simp only [roundTrip, ctFromStr, ctToPy, ctToStr,
    listFromStr_canonical v vs hv, listToPy_valid_nonempty v vs hv]
  rw [hls]

theorem map_entryDump (es : List (String × String)) :
    ((es.map (fun p => (p.1, PyLeaf.lstr p.2))).map entryDump) = es.map entryChunk := by
  induction es with
  | nil => rfl
  | cons e rest ih => simp [entryDump, entryChunk, leafDump, ih]

theorem parseEntry_quoted (k val : String) (rest : List Char) :
    parseEntry ('"' :: (escChars k.data ++ '"' :: (':' :: ' ' ::
        ('"' :: (escChars val.data ++ '"' :: rest))))) =
      some ((k, .lstr val), rest) := by
  rw [parseEntry.eq_def]
  simp [parseStrBody_escChars, parseLeaf_quoted]

theorem parseDictTail_quoted (es : List (String × String)) (fuel : Nat) (rest : List Char)
    (hf : es.length ≤ fuel) :
    parseDictTail fuel (tailJoin (es.map entryChunk) ++ '\x7d' :: rest) =
      some (es.map (fun p => (p.1, PyLeaf.lstr p.2)), rest) := by
  induction es generalizing fuel rest with
  | nil =>
    show parseDictTail fuel ('\x7d' :: rest) = some ([], rest)
    rw [parseDictTail.eq_def]
    simp
  | cons e es ih =>
    cases fuel with
    | zero => simp at hf
    | succ f =>
      have hstep : tailJoin ((e :: es).map entryChunk) ++ '\x7d' :: rest =
          ',' :: ' ' :: ('"' :: (escChars e.1.data ++ '"' :: (':' :: ' ' ::
            ('"' :: (escChars e.2.data ++ '"' ::
              (tailJoin (es.map entryChunk) ++ '\x7d' :: rest)))))) := by
        simp [tailJoin, entryChunk, quoteStr, List.append_assoc]
      rw [hstep]
      rw [parseDictTail.eq_def]
      simp only [List.length_cons] at hf
      simp [parseEntry_quoted, ih f rest (by omega)]

theorem parseJson_dictDump (e : String × String) (es : List (String × String)) :
    parseJson (jsonDumpVal (.pydict ((e :: es).map (fun p => (p.1, PyLeaf.lstr p.2))))) =
      some (.pydict ((e :: es).map (fun p => (p.1, PyLeaf.lstr p.2)))) := by
  have hdata : (jsonDumpVal (.pydict ((e :: es).map (fun p => (p.1, PyLeaf.lstr p.2))))).data =
      '\x7b' :: ('"' :: (escChars e.1.data ++ '"' :: (':' :: ' ' ::
        ('"' :: (escChars e.2.data ++ '"' ::
          (tailJoin (es.map entryChunk) ++ '\x7d' :: [])))))) := by
    show '\x7b' :: (sepJoin (((e :: es).map (fun p => (p.1, PyLeaf.lstr p.2))).map entryDump)
      ++ ['\x7d']) = _
    rw [map_entryDump]
    simp [List.map_cons, sepJoin_cons, entryChunk, quoteStr, List.append_assoc]
  have hlen : es.length ≤
      (jsonDumpVal (.pydict ((e :: es).map (fun p => (p.1, PyLeaf.lstr p.2))))).length := by
    have hl : (jsonDumpVal (.pydict ((e :: es).map (fun p => (p.1, PyLeaf.lstr p.2))))).length =
        ('\x7b' :: ('"' :: (escChars e.1.data ++ '"' :: (':' :: ' ' ::
          ('"' :: (escChars e.2.data ++ '"' ::
            (tailJoin (es.map entryChunk) ++ '\x7d' :: []))))))).length := by
      show (jsonDumpVal (.pydict ((e :: es).map (fun p => (p.1, PyLeaf.lstr p.2))))).data.length = _
      rw [hdata]
    rw [hl]
    have h2 := tailJoin_length_ge (es.map entryChunk)
    rw [List.length_map] at h2
    simp [List.length_append]
    omega
  rw [parseJson.eq_def]
  rw [hdata]
  have hpt := parseDictTail_quoted es
    ((jsonDumpVal (.pydict ((e.1, PyLeaf.lstr e.2) ::
      es.map (fun p => (p.1, PyLeaf.lstr p.2))))).length) []
    (by exact hlen)
  simp [parseEntry_quoted, hpt]

theorem entryChunk_any (e : String × String)
    (h1 : e.1.data.any unprintable = false) (h2 : e.2.data.any unprintable = false) :
    (entryChunk e).any unprintable = false := by
  rw [entryChunk, List.any_append, quoteStr_any, List.any_cons, List.any_cons, quoteStr_any]
  simp [h1, h2, show unprintable ':' = false from rfl, show unprintable ' ' = false from rfl]

theorem tailJoin_any_printable_entries (es : List (String × String))
    (h : ∀ p ∈ es, p.1.data.any unprintable = false ∧ p.2.data.any unprintable = false) :
    (tailJoin (es.map entryChunk)).any unprintable = false := by
  induction es with
  | nil => rfl
  | cons e es ih =>
    rw [List.map_cons, tailJoin, List.any_cons, List.any_cons, List.any_append,
      entryChunk_any e (h e (by simp)).1 (h e (by simp)).2,
      ih (fun p hp => h p (by simp [hp]))]
    simp [show unprintable ',' = false from rfl, show unprintable ' ' = false from rfl]

theorem dictDump_printable (e : String × String) (es : List (String × String))
    (h : ∀ p ∈ e :: es, p.1.data.any unprintable = false ∧ p.2.data.any unprintable = false) :
    (jsonDumpVal (.pydict ((e :: es).map
      (fun p => (p.1, PyLeaf.lstr p.2))))).data.any unprintable = false := by
  show ('\x7b' :: (sepJoin (((e :: es).map (fun p => (p.1, PyLeaf.lstr p.2))).map entryDump)
    ++ ['\x7d'])).any unprintable = false
  rw [map_entryDump, List.map_cons, sepJoin_cons, List.any_cons, List.any_append,
    List.any_append, entryChunk_any e (h e (by simp)).1 (h e (by simp)).2,
    tailJoin_any_printable_entries es (fun p hp => h p (by simp [hp]))]
  simp [show unprintable '\x7b' = false from rfl, show unprintable '\x7d' = false from rfl]

theorem mapEntries_valid_strings (es : List (String × String))
    (h : (es.all fun p => validStr p.1 && validStr p.2) = true) :
    mapEntries {} (es.map (fun p => (p.1, PyLeaf.lstr p.2))) =
      .ok (es.map (fun p => (p.1, PyLeaf.lstr p.2))) := by
  induction es with
  | nil => rfl
  | cons e rest ih =>
    rw [List.all_cons, Bool.and_eq_true] at h
    obtain ⟨he, hrest⟩ := h
    rw [Bool.and_eq_true] at he
    simp only [List.map_cons]
    rw [mapEntries]
    simp [stringToPy_valid e.1 he.1, elemToPy_valid e.2 he.2, ih hrest]

theorem dictToPy_valid_nonempty (e : String × String) (es : List (String × String))
    (hv : ((e :: es).all fun p => validStr p.1 && validStr p.2) = true) :
    dictToPy {} (.pydict ((e :: es).map (fun p => (p.1, PyLeaf.lstr p.2)))) =
      .ok (.pydict ((e :: es).map (fun p => (p.1, PyLeaf.lstr p.2)))) := by
  have hmap := mapEntries_valid_strings (e :: es) hv
  simp only [List.map_cons] at hmap ⊢
  show (match mapEntries {} ((e.1, PyLeaf.lstr e.2) ::
      es.map (fun p => (p.1, PyLeaf.lstr p.2))) with
    | .error er => (.error er : VResult PyValue)
    | .ok es2 =>
      match applyKeyShape {} es2 with
      | .error er => .error er
      | .ok es3 => .ok (.pydict es3)) = _
  rw [hmap]
  rfl

theorem dictFromStr_canonical (e : String × String) (es : List (String × String))
    (hv : ((e :: es).all fun p => validStr p.1 && validStr p.2) = true) :
    dictFromStr {} (jsonDumpVal (.pydict ((e :: es).map (fun p => (p.1, PyLeaf.lstr p.2))))) =
      .ok (.pydict ((e :: es).map (fun p => (p.1, PyLeaf.lstr p.2)))) := by
  have hp : ∀ p ∈ e :: es, p.1.data.any unprintable = false ∧
      p.2.data.any unprintable = false := by
    intro p hp
    have := (List.all_eq_true.mp hv) p hp
    rw [Bool.and_eq_true] at this
    exact ⟨(validStr_spec this.1).2, (validStr_spec this.2).2⟩
  have h2 := dictDump_printable e es hp
  have h1 : (jsonDumpVal (.pydict ((e :: es).map
      (fun p => (p.1, PyLeaf.lstr p.2))))).isEmpty = false :=
    mk_isEmpty_false _ _
  have hb := basicStr_ok_of_valid h1 h2 false
  simp only [dictFromStr, hb, h1, Bool.false_eq_true, if_false,
    parseJson_dictDump e es, dictToPy_valid_nonempty e es hv]

theorem dict_roundTrip (e : String × String) (es : List (String × String))
    (hv : ((e :: es).all fun p => validStr p.1 && validStr p.2) = true) :
    roundTrip (.ctDict {}) (dictToStr (.pydict ((e :: es).map
        (fun p => (p.1, PyLeaf.lstr p.2))))) =
      some (dictToStr (.pydict ((e :: es).map (fun p => (p.1, PyLeaf.lstr p.2))))) := by
  have hds : dictToStr (.pydict ((e :: es).map (fun p => (p.1, PyLeaf.lstr p.2)))) =
      jsonDumpVal (.pydict ((e :: es).map (fun p => (p.1, PyLeaf.lstr p.2)))) := by
    simp only [List.map_cons]
    rfl
  rw [hds]
  simp only [roundTrip, ctFromStr, ctToPy, ctToStr,
    dictFromStr_canonical e es hv, dictToPy_valid_nonempty e es hv]
  rw [hds]

/-- C2: the round-trip law for the exact types — `to_str(to_py(from_str(s)))`
is the identity on canonical strings of String, Int, List-of-String and
Dict-of-String values, and any accepted Int literal round-trips to its
canonical form; lossy types canonicalize instead of preserving the input:
`Int.from_str('007')` yields the integer 7 and `Int.to_str(7)` yields `'7'`,
while `Bool.from_str('on')` yields true and `Bool.to_str(true)` yields
`'true'`. -/
theorem round_trip_canonical :
    (∀ s : String, validStr s = true → roundTrip (.ctString {}) s = some s) ∧
    (∀ n : Int, roundTrip (.ctInt {}) (intDecString n) = some (intDecString n)) ∧
    (∀ (s : String) (n : Int), intFromStr {} s = .ok (.pyint n) →
      roundTrip (.ctInt {}) s = some (intDecString n)) ∧
    (∀ (v : String) (vs : List String), (v :: vs).all validStr = true →
      roundTrip (.ctList {}) (listToStr (.pylist ((v :: vs).map PyLeaf.lstr))) =
        some (listToStr (.pylist ((v :: vs).map PyLeaf.lstr)))) ∧
    (∀ (e : String × String) (es : List (String × String)),
      ((e :: es).all fun p => validStr p.1 && validStr p.2) = true →
      roundTrip (.ctDict {}) (dictToStr (.pydict ((e :: es).map
          (fun p => (p.1, PyLeaf.lstr p.2))))) =
        some (dictToStr (.pydict ((e :: es).map (fun p => (p.1, PyLeaf.lstr p.2)))))) ∧
    intFromStr {} "007" = .ok (.pyint 7) ∧
    intToStr (.pyint 7) = "7" ∧
    boolFromStr false "on" = .ok (.pybool true) ∧
    boolToStr (.pybool true) = "true" := by
  refine ⟨string_roundTrip, ?_, int_roundTrip_general, list_roundTrip, dict_roundTrip,
    by decide, ?_, by decide, by decide⟩
  · intro n
    exact int_roundTrip_general (intDecString n) n (intFromStr_canonical n)
  · show intDecString 7 = "7"
    rw [intDecString, if_neg (by decide), natDecChars, dif_pos (by decide)]
    rfl

/-- C2 witness: the round-trip law at concrete canonical inputs, including the
canonicalizing parse of `'007'`. -/
theorem round_trip_canonical_witness :
    roundTrip (.ctString {}) "abc" = some "abc" ∧
    roundTrip (.ctInt {}) "007" = some (intDecString 7) ∧
    roundTrip (.ctList {}) (listToStr (.pylist [.lstr "a", .lstr "b"])) =
      some (listToStr (.pylist [.lstr "a", .lstr "b"])) ∧
    roundTrip (.ctDict {}) (dictToStr (.pydict [("k", .lstr "v")])) =
      some (dictToStr (.pydict [("k", .lstr "v")])) :=
  ⟨round_trip_canonical.1 "abc" (by decide),
   round_trip_canonical.2.2.1 "007" 7 (by decide),
   round_trip_canonical.2.2.2.1 "a" ["b"] (by decide),
   round_trip_canonical.2.2.2.2.1 ("k", "v") [] (by decide)⟩

end Configtypes
